import Mathlib

/-!
Verification of the yangbingyibot orchestration core against its
natural-language specification.

The development shallowly embeds the relevant TypeScript sources:

* `src/utils/retry.ts` (`withRetry`) — bounded retry with exponential backoff;
* `src/clients/github.ts` (`generateFingerprint`) — error-message normalization;
* `src/clients/kv.ts` (final, KV-native-TTL revision) — history/cache store;
* `src/workflows/answerQuestionWorkflow.ts` — the streaming throttle
  (`streamGeminiWithDiscordEditsStep` and its `onChunk` handler), the error
  reporting pipeline (`reportErrorToGitHub`), and the orchestrator `run`;
* the final revision of the Gemini client (`src/unnamed/part_021`; the named
  `src/clients/gemini.ts` is a superseded snapshot of the same file) —
  `askStream`'s part loop driving `onChunk`;
* `src/clients/discord.ts` (`editOriginalMessage`).

External collaborators (the KV namespace, the Discord sink, the GitHub API,
the model stream) are modelled as explicit inputs: each external call site
takes its outcome from an oracle parameter, so every definition is a total
computable function and runs of the code become pure traces.
-/

namespace Spec2Proof

/-! ## Retry helper (`src/utils/retry.ts`) -/

/-- Mirror of the `RetryConfig` interface of `retry.ts`. -/
structure RetryConfig where
  maxAttempts : Nat
  initialDelayMs : Nat
  maxDelayMs : Nat
  backoffMultiplier : Nat
deriving Repr, DecidableEq

/-- Mirror of `DEFAULT_RETRY_CONFIG` (`3/1000/10000/2`). -/
def defaultRetryConfig : RetryConfig :=
  { maxAttempts := 3, initialDelayMs := 1000, maxDelayMs := 10000, backoffMultiplier := 2 }

/-- Observable behaviour of one `withRetry` invocation: how many times the
wrapped operation was called, which backoff sleeps were performed (in order,
in milliseconds), and the final outcome (`.error` models a rethrow, with the
JavaScript error's message as the payload). -/
structure RetryTrace (V : Type) where
  calls : Nat
  delays : List Nat
  outcome : Except String V

/-- The loop body of `withRetry`.  `op k` is the outcome of the `k`-th call of
the operation (`k` counts from 0, matching the `attempt` variable); `remaining`
is `maxAttempts - attempt`.  The `remaining = 0` base case corresponds to the
`throw lastError` line after the loop, reachable only when `maxAttempts = 0`
(where `lastError` is initialised to `Error('Retry failed')`). -/
def withRetryGo (op : Nat → Except String V) (shouldRetry : String → Bool)
    (cfg : RetryConfig) : Nat → Nat → RetryTrace V
  | _, 0 => ⟨0, [], .error "Retry failed"⟩
  | attempt, remaining + 1 =>
    match op attempt with
    | .ok v => ⟨1, [], .ok v⟩
    | .error e =>
      if remaining = 0 || !shouldRetry e then
        ⟨1, [], .error e⟩
      else
        let delay := min (cfg.initialDelayMs * cfg.backoffMultiplier ^ attempt) cfg.maxDelayMs
        let rest := withRetryGo op shouldRetry cfg (attempt + 1) remaining
        ⟨rest.calls + 1, delay :: rest.delays, rest.outcome⟩

/-- Mirror of `withRetry` from `retry.ts`: the operation is modelled by the
outcome of its `k`-th call. -/
def withRetry (op : Nat → Except String V) (cfg : RetryConfig)
    (shouldRetry : String → Bool) : RetryTrace V :=
  withRetryGo op shouldRetry cfg 0 cfg.maxAttempts

/-! ## JavaScript value model

`kv.ts` stores JSON-serialised data in a Cloudflare KV namespace and reads it
back with `JSON.parse` (resp. `get(key, "json")`).  We model runtime
JavaScript values by `JVal`; `jsonNormalize` is the composite
`JSON.parse ∘ JSON.stringify`, whose only effects on our value universe are
dropping `undefined`-valued object fields and turning `undefined` array
elements into `null`. -/

/-- JavaScript runtime values (restricted to the JSON-expressible universe
plus `undefined`). -/
inductive JVal where
  | jundefined
  | jnull
  | jbool (b : Bool)
  | jnum (n : Int)
  | jstr (s : String)
  | jarr (elems : List JVal)
  | jobj (fields : List (String × JVal))
deriving Repr

mutual
/-- `JSON.parse (JSON.stringify v)`. -/
def jsonNormalize : JVal → JVal
  | .jundefined => .jnull
  | .jnull => .jnull
  | .jbool b => .jbool b
  | .jnum n => .jnum n
  | .jstr s => .jstr s
  | .jarr xs => .jarr (jsonNormalizeList xs)
  | .jobj fs => .jobj (jsonNormalizeFields fs)

/-- `jsonNormalize` on array elements (`undefined` elements serialise as
`null`, which `jsonNormalize .jundefined` already yields). -/
def jsonNormalizeList : List JVal → List JVal
  | [] => []
  | x :: xs => jsonNormalize x :: jsonNormalizeList xs

/-- `jsonNormalize` on object fields: `JSON.stringify` drops fields whose
value is `undefined`. -/
def jsonNormalizeFields : List (String × JVal) → List (String × JVal)
  | [] => []
  | (_, .jundefined) :: fs => jsonNormalizeFields fs
  | (k, v) :: fs => (k, jsonNormalize v) :: jsonNormalizeFields fs
end

/-- JavaScript property access `v[k]` as used by destructuring patterns:
objects look the key up among their own fields, every other non-nullish value
has no `role`/`text`/`sheetInfo`/`description` property and yields
`undefined`.  (Access on `null`/`undefined` throws; callers handle that case
before calling this.) -/
def JVal.getField : JVal → String → JVal
  | .jobj fs, k => ((fs.find? (fun f => f.1 = k)).map (fun f => f.2)).getD .jundefined
  | _, _ => .jundefined

/-- JavaScript truthiness. -/
def JVal.truthy : JVal → Bool
  | .jundefined => false
  | .jnull => false
  | .jbool b => b
  | .jnum n => n != 0
  | .jstr s => s != ""
  | .jarr _ => true
  | .jobj _ => true

/-- `typeof v === 'object'` (true for objects, arrays and `null`). -/
def JVal.typeofObject : JVal → Bool
  | .jnull => true
  | .jarr _ => true
  | .jobj _ => true
  | _ => false

/-- `typeof v === 'string'`, returning the string when so. -/
def JVal.asString : JVal → Option String
  | .jstr s => some s
  | _ => none

/-- Whether a value is `null` or `undefined` (the values destructuring
throws on). -/
def JVal.isNullish : JVal → Bool
  | .jnull => true
  | .jundefined => true
  | _ => false

/-! ## Cache/History store (`src/clients/kv.ts`, final KV-native-TTL revision)

Each store method touches exactly one key, so a `put` is modelled by the
record it writes (key, JSON value, TTL) and a `get` by the `Option JVal` the
namespace returns (`none` = absent or expired, the store's native TTL being
authoritative). -/

/-- A `kv.put(key, JSON.stringify(value), { expirationTtl })` call. -/
structure PutRecord where
  key : String
  value : JVal
  expirationTtl : Option Nat
deriving Repr

/-- `CACHE_TTL_SECONDS = 5 * 60`. -/
def CACHE_TTL_SECONDS : Nat := 5 * 60

/-- One history entry as returned by `getHistory` (`{ role, text }`). -/
structure HistoryEntry where
  role : String
  text : String
deriving Repr, DecidableEq

/-- The arrow-body of `saveHistory`'s `history.map(({ role, text }) => ({
role, text }))` applied to one (arbitrary JavaScript) entry: destructuring
`null`/`undefined` throws a `TypeError` (modelled by `.error ()`), any other
value is read back as a two-field object literal whose field values may be
`undefined`. -/
def stripHistoryEntry : JVal → Except Unit JVal
  | .jnull => .error ()
  | .jundefined => .error ()
  | v => .ok (.jobj [("role", v.getField "role"), ("text", v.getField "text")])

/-- `history.map(...)` over the whole list: the first throwing entry aborts
the map (and hence the save) before anything is written. -/
def stripHistoryEntries : List JVal → Except Unit (List JVal)
  | [] => .ok []
  | e :: es => do
    let v ← stripHistoryEntry e
    let vs ← stripHistoryEntries es
    .ok (v :: vs)

/-- `KV.saveHistory` (lines 159–175 of the final `kv.ts`): strip each entry
to `{ role, text }`, `JSON.stringify` the array, and `put` it under
`chat_history` with the fixed 300-second native TTL.  A `TypeError` thrown
while mapping is caught by the surrounding `try` and re-thrown as
`Error('Failed to save conversation history')`, modelled by `.error ()`;
nothing is written in that case. -/
def saveHistory (history : List JVal) : Except Unit PutRecord := do
  let stripped ← stripHistoryEntries history
  .ok { key := "chat_history"
        value := jsonNormalize (.jarr stripped)
        expirationTtl := some CACHE_TTL_SECONDS }

/-- The per-entry filter of `getHistory`: keep `h` iff `h` is truthy, `typeof
h === 'object'`, and both `h.role` and `h.text` are strings; kept entries are
projected to `{ role, text }`. -/
def historyEntryOf (h : JVal) : Option HistoryEntry :=
  if h.truthy && h.typeofObject then
    match (h.getField "role").asString, (h.getField "text").asString with
    | some r, some t => some ⟨r, t⟩
    | _, _ => none
  else none

/-- `KV.getHistory` (lines 177–211 of the final `kv.ts`), applied to the
parsed JSON the namespace returns (`none` models both an absent/expired key
and a falsy raw string; a `JSON.parse` failure likewise yields `[]` and is
subsumed by the non-array fallback). -/
def getHistory : Option JVal → List HistoryEntry
  | none => []
  | some (.jarr entries) => entries.filterMap historyEntryOf
  | some _ => []

/-- The specification's reading of the history round trip: an input list
restricted to its `{ role, text }` fields — an entry with a string `role`
and a string `text` is kept (extras stripped), any other entry is dropped,
order is preserved. -/
def restrictToRoleText (e : JVal) : Option HistoryEntry :=
  match (e.getField "role").asString, (e.getField "text").asString with
  | some r, some t => some ⟨r, t⟩
  | _, _ => none

/-- `KV.saveCache` (lines 237–253): write exactly
`{ sheetInfo, description }` under `sheet_info` with the 300-second TTL. -/
def saveCache (sheetInfo description : String) : PutRecord :=
  { key := "sheet_info"
    value := .jobj [("sheetInfo", .jstr sheetInfo), ("description", .jstr description)]
    expirationTtl := some CACHE_TTL_SECONDS }

/-- The defensive shape check of `getCache`: `typeof cachedData === 'object'`
and both `sheetInfo` and `description` are strings. -/
def cacheShapeOk (v : JVal) : Bool :=
  v.typeofObject && (v.getField "sheetInfo").asString.isSome
    && (v.getField "description").asString.isSome

/-- `KV.getCache` (lines 213–235), applied to the value
`kv.get(SHEET_INFO, "json")` returns: `null` stays `null`, falsy or
shape-invalid data is treated as a miss, anything else is returned as-is. -/
def getCache : Option JVal → Option JVal
  | none => none
  | some v =>
    if !v.truthy then none
    else if cacheShapeOk v then some v
    else none

/-! ## Error fingerprinting (`src/clients/github.ts`)

`generateFingerprint` chains four global regex replacements:

1. `/[0-9a-f]{8}-[0-9a-f]{4}-[0-9a-f]{4}-[0-9a-f]{4}-[0-9a-f]{12}/gi → <UUID>`
2. `/\b[0-9a-f]{8,}\b/gi → <HEX>`
3. `/\d{4}-\d{2}-\d{2}T\d{2}:\d{2}:\d{2}[.\dZ]*/g → <TIMESTAMP>`
4. `/\d+/g → <N>`

Each is implemented as a left-to-right scanner over the character list,
mirroring the regex engine: attempt a match at the current position, replace
and resume after the match on success, otherwise emit one character and
retry at the next position.  All quantifiers involved are either of fixed
count or maximal-munch with no viable backtracking (shortening a
`[0-9a-f]{8,}` run can never restore the trailing `\b`, because the exposed
next character is itself a hex — hence word — character), so the scanners
match the regexes exactly.  The fuel argument is always instantiated with
the list length, which bounds the number of scanner steps. -/

/-- `[0-9a-f]` with the `i` flag. -/
def isHexDigitJs (c : Char) : Bool :=
  c.isDigit || (decide ('a' ≤ c) && decide (c ≤ 'f')) || (decide ('A' ≤ c) && decide (c ≤ 'F'))

/-- JavaScript `\w` (and hence `\b` context): `[A-Za-z0-9_]`. -/
def isWordCharJs (c : Char) : Bool :=
  c.isAlpha || c.isDigit || c = '_'

/-- Consume exactly `n` characters satisfying `p`, returning the remainder. -/
def takeExact (p : Char → Bool) : Nat → List Char → Option (List Char)
  | 0, cs => some cs
  | _ + 1, [] => none
  | n + 1, c :: cs => if p c then takeExact p n cs else none

/-- Consume one expected character. -/
def expectChar (x : Char) : List Char → Option (List Char)
  | [] => none
  | c :: cs => if c = x then some cs else none

/-- Match the fixed-shape UUID pattern at the head of the list. -/
def matchUUID (cs : List Char) : Option (List Char) :=
  takeExact isHexDigitJs 8 cs >>= expectChar '-' >>= takeExact isHexDigitJs 4
    >>= expectChar '-' >>= takeExact isHexDigitJs 4 >>= expectChar '-'
    >>= takeExact isHexDigitJs 4 >>= expectChar '-' >>= takeExact isHexDigitJs 12

/-- Replacement pass for the UUID regex. -/
def replaceUUIDGo : Nat → List Char → List Char
  | 0, cs => cs
  | _ + 1, [] => []
  | fuel + 1, c :: cs =>
    match matchUUID (c :: cs) with
    | some rest => "<UUID>".toList ++ replaceUUIDGo fuel rest
    | none => c :: replaceUUIDGo fuel cs

/-- The trailing `\b` of `\b[0-9a-f]{8,}\b`: the character after the maximal
hex run must be a non-word character (or the end of the string). -/
def hexBoundaryAfter : List Char → Bool
  | [] => true
  | c :: _ => !isWordCharJs c

/-- Replacement pass for `/\b[0-9a-f]{8,}\b/gi`.  `prevWord` records whether
the character before the current position is a word character (initially
false: start-of-string is a boundary).  After a replacement the scan resumes
with `prevWord = true`, the last matched character being a hex character. -/
def replaceHexGo : Nat → Bool → List Char → List Char
  | 0, _, cs => cs
  | _ + 1, _, [] => []
  | fuel + 1, prevWord, c :: cs =>
    let run := (c :: cs).takeWhile isHexDigitJs
    let rest := (c :: cs).dropWhile isHexDigitJs
    if !prevWord && decide (8 ≤ run.length) && hexBoundaryAfter rest then
      "<HEX>".toList ++ replaceHexGo fuel true rest
    else
      c :: replaceHexGo fuel (isWordCharJs c) cs

/-- `[.\dZ]` (the `i` flag is absent on the timestamp regex, so only the
uppercase `Z`). -/
def isTsTailChar (c : Char) : Bool :=
  c = '.' || c.isDigit || c = 'Z'

/-- Match `\d{4}-\d{2}-\d{2}T\d{2}:\d{2}:\d{2}[.\dZ]*` at the head. -/
def matchTimestamp (cs : List Char) : Option (List Char) :=
  (takeExact Char.isDigit 4 cs >>= expectChar '-' >>= takeExact Char.isDigit 2
      >>= expectChar '-' >>= takeExact Char.isDigit 2 >>= expectChar 'T'
      >>= takeExact Char.isDigit 2 >>= expectChar ':' >>= takeExact Char.isDigit 2
      >>= expectChar ':' >>= takeExact Char.isDigit 2).map
    (fun rest => rest.dropWhile isTsTailChar)

/-- Replacement pass for the timestamp regex. -/
def replaceTimestampGo : Nat → List Char → List Char
  | 0, cs => cs
  | _ + 1, [] => []
  | fuel + 1, c :: cs =>
    match matchTimestamp (c :: cs) with
    | some rest => "<TIMESTAMP>".toList ++ replaceTimestampGo fuel rest
    | none => c :: replaceTimestampGo fuel cs

/-- Replacement pass for `/\d+/g` (maximal decimal digit runs). -/
def replaceDigitsGo : Nat → List Char → List Char
  | 0, cs => cs
  | _ + 1, [] => []
  | fuel + 1, c :: cs =>
    if c.isDigit then
      "<N>".toList ++ replaceDigitsGo fuel ((c :: cs).dropWhile Char.isDigit)
    else
      c :: replaceDigitsGo fuel cs

/-- `GitHubIssueClient.generateFingerprint` (`github.ts` lines 44–53): the
four replacements in the order they appear in the source — UUID, then long
hex runs, then ISO-8601 timestamps, then decimal digit runs. -/
def generateFingerprint (s : String) : String :=
  let l1 := replaceUUIDGo s.toList.length s.toList
  let l2 := replaceHexGo l1.length false l1
  let l3 := replaceTimestampGo l2.length l2
  String.mk (replaceDigitsGo l3.length l3)

/-- The normalization pipeline in the order the specification asserts it:
UUID patterns, then ISO-8601 timestamps, then long hex runs, then decimal
digit runs.  Built from the same passes as `generateFingerprint`; it differs
from the source only in swapping the hex and timestamp passes, and is used
to compare the spec's claimed order against the code's. -/
def specOrderFingerprint (s : String) : String :=
  let l1 := replaceUUIDGo s.toList.length s.toList
  let l2 := replaceTimestampGo l1.length l1
  let l3 := replaceHexGo l2.length false l2
  String.mk (replaceDigitsGo l3.length l3)

/-! ## Error reporting pipeline (`reportErrorToGitHub`,
`answerQuestionWorkflow.ts` lines 332–377)

The raw KV namespace is a function `String → Option String`; the issue
tracker's state is the list of fingerprints of its open auto-reported
issues.  The outcomes of the two remote calls (`isDuplicate`, which is
already fail-open and returns a `Bool`, and `createIssue`, which returns
whether creation succeeded) are oracle inputs. -/

/-- External calls `reportErrorToGitHub` can make, in order of occurrence. -/
inductive ReportEvent where
  | kvGet (key : String)
  | githubSearch (fingerprint : String)
  | githubCreate (fingerprint : String)
  | kvPut (key : String) (value : String) (expirationTtl : Nat)
deriving Repr, DecidableEq

/-- Environment of one `reportErrorToGitHub` call. -/
structure ReportEnv where
  /-- `env.GITHUB_TOKEN` (`none` = unset; the code treats the empty string as
  unset too via JavaScript falsiness). -/
  githubToken : Option String
  /-- The raw KV namespace (`env.sushanshan_bot`). -/
  kv : String → Option String
  /-- Result of `github.isDuplicate(fingerprint)` (fail-open `Bool`). -/
  isDupResult : Bool
  /-- Result of `github.createIssue(report, fingerprint)`. -/
  createOk : Bool

/-- `ERROR_REPORTED_TTL_SECONDS = 60 * 60`. -/
def ERROR_REPORTED_TTL_SECONDS : Nat := 60 * 60

/-- Result of a `reportErrorToGitHub` call: the KV namespace and issue
tracker afterwards, plus the trace of external calls made. -/
structure ReportResult where
  kv : String → Option String
  issues : List String
  events : List ReportEvent

/-- `reportErrorToGitHub` applied to an error message, given the tracker's
current open issues.  Mirrors the source: no-op when the token is unset
(falsy); layer-1 KV dedup (`if (existing)` — a truthy, i.e. non-empty,
cached string short-circuits); layer-2 remote search, warming the KV cache
on a hit; otherwise issue creation, caching the fingerprint only on
success. -/
def reportErrorToGitHub (env : ReportEnv) (issues : List String)
    (errorMessage : String) : ReportResult :=
  match env.githubToken with
  | none => ⟨env.kv, issues, []⟩
  | some tok =>
    if tok = "" then ⟨env.kv, issues, []⟩
    else
      let fingerprint := generateFingerprint errorMessage
      let kvKey := "error_reported:" ++ fingerprint
      let existing := env.kv kvKey
      if (existing.getD "") ≠ "" then
        ⟨env.kv, issues, [.kvGet kvKey]⟩
      else
        let putKv : String → Option String :=
          fun k => if k = kvKey then some "1" else env.kv k
        if env.isDupResult then
          ⟨putKv, issues,
            [.kvGet kvKey, .githubSearch fingerprint,
             .kvPut kvKey "1" ERROR_REPORTED_TTL_SECONDS]⟩
        else if env.createOk then
          ⟨putKv, issues ++ [fingerprint],
            [.kvGet kvKey, .githubSearch fingerprint, .githubCreate fingerprint,
             .kvPut kvKey "1" ERROR_REPORTED_TTL_SECONDS]⟩
        else
          ⟨env.kv, issues,
            [.kvGet kvKey, .githubSearch fingerprint, .githubCreate fingerprint]⟩

/-! ## Streaming throttle
(`streamGeminiWithDiscordEditsStep`, `answerQuestionWorkflow.ts` lines
107–264, and the final `GeminiClient.askStream`, `src/unnamed/part_021`
lines 168–232 — the final-era revision of the client, identified by the
same `getErrorMessage`/`HistoryEntry` imports as the final workflow and by
the workflow tests' description of its chunk delivery)

`Date.now()`, the Discord PATCH outcome and the thinking summariser are
external; each `onChunk` invocation therefore carries the clock value and
the PATCH outcome it would observe, and the summariser is an oracle
`String → String` (covering both a successful summary and the
`考え中...` fallback, which the claims do not distinguish). -/

/-- Throttle constants of `answerQuestionWorkflow.ts` lines 108–113. -/
def DISCORD_EDIT_INTERVAL_MS : Int := 1500

/-- `MIN_CHUNK_SIZE = 50`. -/
def MIN_CHUNK_SIZE : Int := 50

/-- `THINKING_EDIT_INTERVAL_MS = 1000`. -/
def THINKING_EDIT_INTERVAL_MS : Int := 1000

/-- `THINKING_MIN_CHUNK_SIZE = 200`. -/
def THINKING_MIN_CHUNK_SIZE : Int := 200

/-- Chunk phase, derived from the model's per-part `thought` flag. -/
inductive Phase where
  | thinking
  | response
deriving Repr, DecidableEq

/-- Outcome of one `fetch` PATCH to the Discord webhook. -/
inductive EditOutcome where
  | success
  | rateLimited
  | httpError (status : Nat)
  | exception
deriving Repr, DecidableEq

/-- `DiscordWebhookClient.editOriginalMessage` (`discord.ts` lines 19–47):
`true` exactly on an `res.ok` response; a 429 (after its `Retry-After`
sleep), any other non-ok status, and a thrown exception all return `false`.
Being a total function, the model never throws. -/
def editOriginalMessage : EditOutcome → Bool
  | .success => true
  | .rateLimited => false
  | .httpError _ => false
  | .exception => false

/-- The mutable state captured by the `onChunk` closure
(`answerQuestionWorkflow.ts` lines 170–175). -/
structure StreamState where
  lastEditTime : Int
  lastThinkingEditLength : Nat
  lastResponseEditLength : Nat
  editCount : Nat
  currentPhase : Phase
  accumulatedThinking : String
deriving Repr, DecidableEq

/-- The closure state right before the first chunk. -/
def initStreamState : StreamState :=
  { lastEditTime := 0, lastThinkingEditLength := 0, lastResponseEditLength := 0
    editCount := 0, currentPhase := .thinking, accumulatedThinking := "" }

/-- One `onChunk(accumulatedText, phase)` invocation together with the
environment it observes. -/
structure ChunkEvent where
  accumulatedText : String
  phase : Phase
  /-- `Date.now()` at entry. -/
  now : Int
  /-- Outcome of the Discord PATCH, if one is attempted. -/
  editOutcome : EditOutcome
deriving Repr, DecidableEq

/-- `> ${question}\n${text}`. -/
def formatContent (question text : String) : String :=
  "> " ++ question ++ "\n" ++ text

/-- `> ${question}\n:thought_balloon: ${summary}`. -/
def formatThinkingContent (question summary : String) : String :=
  "> " ++ question ++ "\n:thought_balloon: " ++ summary

/-- One attempted Discord edit, as recorded in the run's trace. -/
structure EditAttempt where
  content : String
  /-- Whether the gate was bypassed by `isPhaseTransition`. -/
  forced : Bool
  /-- The `editOriginalMessage` return value. -/
  ok : Bool
  /-- The text passed to `summarizeThinking`, for thinking-phase edits. -/
  summarizerInput : Option String
deriving Repr, DecidableEq

/-- The body of `onChunk` (`answerQuestionWorkflow.ts` lines 181–241):
returns the updated closure state and the edit attempt, if one was made. -/
def onChunkStep (question : String) (summarize : String → String)
    (s : StreamState) (e : ChunkEvent) : StreamState × Option EditAttempt :=
  let timeSinceLastEdit := e.now - s.lastEditTime
  let isPhaseTransition : Bool :=
    decide (e.phase = .response) && decide (s.currentPhase = .thinking)
  let acc :=
    if e.phase = .thinking then s.accumulatedThinking ++ e.accumulatedText
    else s.accumulatedThinking
  let s1 : StreamState := { s with currentPhase := e.phase, accumulatedThinking := acc }
  let editInterval :=
    if e.phase = .thinking then THINKING_EDIT_INTERVAL_MS else DISCORD_EDIT_INTERVAL_MS
  let minChunkSize :=
    if e.phase = .thinking then THINKING_MIN_CHUNK_SIZE else MIN_CHUNK_SIZE
  let lastLen :=
    if e.phase = .thinking then s1.lastThinkingEditLength else s1.lastResponseEditLength
  let textLength :=
    if e.phase = .thinking then acc.length else e.accumulatedText.length
  let newCharsCount : Int := (textLength : Int) - (lastLen : Int)
  if isPhaseTransition
      || (decide (editInterval ≤ timeSinceLastEdit)
            && decide (minChunkSize ≤ newCharsCount)) then
    let attempt : EditAttempt :=
      if e.phase = .thinking then
        { content := formatThinkingContent question (summarize acc)
          forced := isPhaseTransition
          ok := editOriginalMessage e.editOutcome
          summarizerInput := some acc }
      else
        { content := formatContent question e.accumulatedText
          forced := isPhaseTransition
          ok := editOriginalMessage e.editOutcome
          summarizerInput := none }
    if editOriginalMessage e.editOutcome then
      ({ s1 with
          lastEditTime := e.now
          lastThinkingEditLength :=
            if e.phase = .thinking then acc.length else s1.lastThinkingEditLength
          lastResponseEditLength :=
            if e.phase = .thinking then s1.lastResponseEditLength
            else e.accumulatedText.length
          editCount := s1.editCount + 1 },
        some attempt)
    else
      (s1, some attempt)
  else
    (s1, none)

/-- Fold `onChunk` over a list of chunk events, collecting the trace of
attempted edits. -/
def runChunks (question : String) (summarize : String → String) :
    StreamState → List ChunkEvent → StreamState × List EditAttempt
  | s, [] => (s, [])
  | s, e :: es =>
    let (s1, r) := onChunkStep question summarize s e
    let (s2, tr) := runChunks question summarize s1 es
    (s2, r.toList ++ tr)

/-- One part of the model stream as visited by the nested
`for await (chunk of stream) / for (part of chunk.candidates[0].content.parts)`
loop of the final `GeminiClient.askStream` (the final-era client revision,
`src/unnamed/part_021`, lines 199–212): its `part.text` (`none` models a
part whose `text` is not a string, which the loop `continue`s over) and its
`part.thought` flag, plus the environment of the `onChunk` call it would
trigger.  Flattening the chunks' parts into one list preserves the nested
loop's visiting order. -/
structure RawPart where
  text : Option String
  thought : Bool
  now : Int
  editOutcome : EditOutcome
deriving Repr, DecidableEq

/-- The part loop of the final `askStream`: a part without a string `text`
is skipped; a thought part triggers `onChunk(part.text, "thinking")` with
that part's individual text and leaves `fullText` alone; any other part is
appended to `fullText` and triggers `onChunk(fullText, "response")` with the
cumulative response text.  Returns the final (response-only) `fullText` and
the `onChunk` invocations in order. -/
def askStreamEvents (fullText : String) : List RawPart → String × List ChunkEvent
  | [] => (fullText, [])
  | p :: ps =>
    match p.text with
    | none => askStreamEvents fullText ps
    | some t =>
      if p.thought then
        ((askStreamEvents fullText ps).1,
         ⟨t, Phase.thinking, p.now, p.editOutcome⟩ :: (askStreamEvents fullText ps).2)
      else
        ((askStreamEvents (fullText ++ t) ps).1,
         ⟨fullText ++ t, Phase.response, p.now, p.editOutcome⟩
           :: (askStreamEvents (fullText ++ t) ps).2)

/-- The texts the response-tagged parts contribute to `fullText`, in
order. -/
def responseTexts (ps : List RawPart) : List String :=
  ps.filterMap (fun p => if p.thought then none else p.text)

/-- The texts of the thought-tagged parts, in order — each is handed to
`onChunk` individually. -/
def thinkingTexts (ps : List RawPart) : List String :=
  ps.filterMap (fun p => if p.thought then p.text else none)

/-- The emptiness check `!fullText || !fullText.trim()` of `askStream`:
true iff the accumulated text consists solely of (ASCII) whitespace,
including the empty string. -/
def blankText (s : String) : Bool :=
  s.toList.all (fun c => c = ' ' || c = '\t' || c = '\n' || c = '\r')

/-- Result of `streamGeminiWithDiscordEditsStep`. -/
structure StreamStepResult where
  response : String
  edits : List EditAttempt
  editCount : Nat
  state : StreamState

/-- `streamGeminiWithDiscordEditsStep` (`answerQuestionWorkflow.ts` lines
149–264) for a given part sequence: run every `onChunk` invocation the final
`askStream` makes, fail (as `askStream` does) when the accumulated response
text is empty or blank, and otherwise perform the one unconditional final
edit showing `formatContent(question, response)` — incrementing `editCount`
regardless of that edit's outcome — where `response` is `askStream`'s
response-only return value. -/
def streamStep (question : String) (summarize : String → String)
    (parts : List RawPart) (finalEditOutcome : EditOutcome) :
    Except String StreamStepResult :=
  if blankText (askStreamEvents "" parts).1 then
    .error "AIから有効な応答が得られませんでした。"
  else
    .ok { response := (askStreamEvents "" parts).1
          edits :=
            (runChunks question summarize initStreamState (askStreamEvents "" parts).2).2
              ++ [{ content := formatContent question (askStreamEvents "" parts).1
                    forced := false
                    ok := editOriginalMessage finalEditOutcome
                    summarizerInput := none }]
          editCount :=
            (runChunks question summarize initStreamState
              (askStreamEvents "" parts).2).1.editCount + 1
          state :=
            { (runChunks question summarize initStreamState (askStreamEvents "" parts).2).1 with
              editCount :=
                (runChunks question summarize initStreamState
                  (askStreamEvents "" parts).2).1.editCount + 1 } }

/-- Number of gate-bypassing (phase-transition) edits in a trace. -/
def forcedEditCount (trace : List EditAttempt) : Nat :=
  (trace.filter (fun a => a.forced)).length

/-- Concatenation of a list of strings (JavaScript `+=` folding). -/
def concatAll : List String → String
  | [] => ""
  | t :: ts => t ++ concatAll ts

/-- The cumulative texts a growing accumulator passes through:
`cumFrom acc [c1, …, cn] = [acc ++ c1, acc ++ c1 ++ c2, …, acc ++ c1 ++ ⋯ ++ cn]`. -/
def cumFrom (acc : String) : List String → List String
  | [] => []
  | t :: ts => (acc ++ t) :: cumFrom (acc ++ t) ts

/-! ## Workflow orchestrator (`AnswerQuestionWorkflow.run`,
`answerQuestionWorkflow.ts` lines 384–551)

Each `step.do` body either returns a checkpointed value or throws; its
outcome is an oracle.  The streaming step alone is configured with
`retries: { limit: 2 }`, so the durable substrate runs its body up to three
times, rethrowing the last error once the budget is exhausted.  Metrics
calls are pure telemetry and are omitted from the trace;
`saveHistoryStep` and `sendDiscordResponseStep` catch internally and never
throw, and `reportErrorToGitHub` is likewise non-throwing, so the only
error sources are steps 1–3. -/

/-- Trace events of one orchestrator run: the step-body and failure-path
invocations the claims are about. -/
inductive WfEvent where
  /-- One execution of the `getSheetData` step body. -/
  | sheetStep
  /-- One execution of the `getHistory` step body. -/
  | historyStep
  /-- One execution (attempt) of the `streamGeminiAndEditDiscord` step body. -/
  | streamAttempt
  /-- One execution of the `saveHistory` step body. -/
  | saveHistoryStep
  /-- One invocation of `reportErrorToGitHub` (outside any `step.do`). -/
  | reportError
  /-- One execution of the `sendErrorResponse` step body (one user-visible
  failure message delivered via `sendDiscordResponseStep`). -/
  | sendErrorResponse
deriving Repr, DecidableEq

/-- `retries: { limit: 2 }` of the streaming step. -/
def STREAM_RETRY_LIMIT : Nat := 2

/-- Oracle outcomes for one orchestrator run.  `streamAttemptOutcome i` is
the outcome of the `i`-th execution of the streaming step body (counted from
0). -/
structure WfEnv where
  sheetOutcome : Except String Unit
  historyOutcome : Except String Unit
  streamAttemptOutcome : Nat → Except String Unit

/-- The durable substrate's retry loop around a `step.do` body with
`attemptsLeft` executions still permitted: rerun on failure while budget
remains, rethrow the last error otherwise.  Returns the step outcome and the
number of body executions. -/
def stepDoRetry (outcome : Nat → Except String Unit) :
    Nat → Nat → Except String Unit × Nat
  | _, 0 => (.error "no attempts", 0)
  | i, 1 => (outcome i, 1)
  | i, attemptsLeft + 2 =>
    match outcome i with
    | .ok v => (.ok v, 1)
    | .error _ =>
      ((stepDoRetry outcome (i + 1) (attemptsLeft + 1)).1,
       (stepDoRetry outcome (i + 1) (attemptsLeft + 1)).2 + 1)

/-- `AnswerQuestionWorkflow.run`: the fixed step sequence inside the `try`,
and the catch block (error report, then the `sendErrorResponse` step) on the
first step failure.  Produces the trace of `WfEvent`s. -/
def runWorkflow (env : WfEnv) : List WfEvent :=
  match env.sheetOutcome with
  | .error _ => [.sheetStep, .reportError, .sendErrorResponse]
  | .ok _ =>
    match env.historyOutcome with
    | .error _ => [.sheetStep, .historyStep, .reportError, .sendErrorResponse]
    | .ok _ =>
      let streamEvents :=
        List.replicate (stepDoRetry env.streamAttemptOutcome 0 (STREAM_RETRY_LIMIT + 1)).2
          WfEvent.streamAttempt
      match (stepDoRetry env.streamAttemptOutcome 0 (STREAM_RETRY_LIMIT + 1)).1 with
      | .error _ =>
        [WfEvent.sheetStep, WfEvent.historyStep] ++ streamEvents
          ++ [WfEvent.reportError, WfEvent.sendErrorResponse]
      | .ok _ =>
        [WfEvent.sheetStep, WfEvent.historyStep] ++ streamEvents
          ++ [WfEvent.saveHistoryStep]

/-! ## Theorems -/

/-- Unfolding of one loop iteration of `withRetry` when the operation's
`k`-th call fails with `errs k`. -/
theorem withRetryGo_error_succ (errs : Nat → String) (sr : String → Bool)
    (cfg : RetryConfig) (k r : Nat) :
    withRetryGo (V := Unit) (fun i => .error (errs i)) sr cfg k (r + 1) =
      (if r = 0 || !sr (errs k) then ⟨1, [], .error (errs k)⟩
       else
         ⟨(withRetryGo (V := Unit) (fun i => .error (errs i)) sr cfg (k + 1) r).calls + 1,
          min (cfg.initialDelayMs * cfg.backoffMultiplier ^ k) cfg.maxDelayMs
            :: (withRetryGo (V := Unit) (fun i => .error (errs i)) sr cfg (k + 1) r).delays,
          (withRetryGo (V := Unit) (fun i => .error (errs i)) sr cfg (k + 1) r).outcome⟩) := rfl

/-- Behaviour of the retry loop on an always-failing operation with an
always-true retry predicate: `r` permitted attempts starting at attempt
index `k` perform exactly `r` calls, sleep
`min(initialDelayMs * backoffMultiplier ^ (k + j), maxDelayMs)` before the
`j`-th retry, and rethrow the last error. -/
theorem withRetryGo_allFail (errs : Nat → String) (cfg : RetryConfig) :
    ∀ r k, 1 ≤ r →
      withRetryGo (V := Unit) (fun i => .error (errs i)) (fun _ => true) cfg k r =
        ⟨r,
         (List.range (r - 1)).map
           (fun j => min (cfg.initialDelayMs * cfg.backoffMultiplier ^ (k + j)) cfg.maxDelayMs),
         .error (errs (k + r - 1))⟩
  | 0, _, h => absurd h (by omega)
  | 1, k, _ => by simp [withRetryGo_error_succ]
  | r + 2, k, _ => by
    have ih := withRetryGo_allFail errs cfg (r + 1) (k + 1) (by omega)
    rw [withRetryGo_error_succ, if_neg (by simp), ih]
    simp only [RetryTrace.mk.injEq, Nat.add_sub_cancel, List.range_succ_eq_map,
      List.map_cons, List.map_map]
    refine ⟨trivial, ?_,
      by rw [show k + 1 + (r + 1) - 1 = k + (r + 2) - 1 from by omega]⟩
    rw [show r + 2 - 1 = r + 1 from rfl, List.range_succ_eq_map, List.map_cons,
      List.map_map]
    simp only [Nat.add_zero]
    congr 1
    refine List.map_congr_left (fun j _ => ?_)
    simp only [Function.comp_apply]
    rw [show k + 1 + j = k + j.succ from by omega]

/-- C4: `withRetry` with `maxAttempts = N ≥ 1` and an always-failing
operation calls the operation exactly `N` times, rethrows the final error,
and sleeps `min(initialDelayMs * backoffMultiplier ^ k, maxDelayMs)` before
the retry following attempt index `k`; with a `shouldRetry` predicate
rejecting the first failure it calls the operation exactly once and rethrows
that first error. -/
theorem withRetry_exhaustion_and_backoff (N initialDelayMs maxDelayMs multiplier : Nat)
    (errs : Nat → String) (shouldRetry : String → Bool)
    (hN : 1 ≤ N) (hsr : shouldRetry (errs 0) = false) :
    withRetry (V := Unit) (fun i => .error (errs i))
        ⟨N, initialDelayMs, maxDelayMs, multiplier⟩ (fun _ => true) =
      ⟨N,
       (List.range (N - 1)).map (fun k => min (initialDelayMs * multiplier ^ k) maxDelayMs),
       .error (errs (N - 1))⟩
    ∧ withRetry (V := Unit) (fun i => .error (errs i))
        ⟨N, initialDelayMs, maxDelayMs, multiplier⟩ shouldRetry =
      ⟨1, [], .error (errs 0)⟩ := by
  constructor
  · have h := withRetryGo_allFail errs ⟨N, initialDelayMs, maxDelayMs, multiplier⟩ N 0 hN
    simpa [withRetry] using h
  · match N, hN with
    | m + 1, _ => simp [withRetry, withRetryGo, hsr]

/-- C4 witness: the default configuration (3/1000/10000/2) with an
always-failing operation makes three calls with sleeps 1000 ms and 2000 ms,
and a single call when the predicate rejects the first error. -/
theorem withRetry_exhaustion_and_backoff_witness :
    withRetry (V := Unit) (fun _ => .error "boom") ⟨3, 1000, 10000, 2⟩ (fun _ => true) =
      ⟨3, [1000, 2000], .error "boom"⟩
    ∧ withRetry (V := Unit) (fun _ => .error "boom") ⟨3, 1000, 10000, 2⟩ (fun _ => false) =
      ⟨1, [], .error "boom"⟩ := by
  simpa using
    withRetry_exhaustion_and_backoff 3 1000 10000 2 (fun _ => "boom") (fun _ => false)
      (by norm_num) rfl

/-- C8 counterexample: the specification claims the replacement order is
UUID patterns, then ISO-8601 timestamps, then long hex runs, then digit
runs; the source applies the hex pass before the timestamp pass.  The two
orders disagree on a timestamp whose fractional-seconds part is a standalone
run of eight digits: the code's hex pass consumes the fraction first. -/
theorem generateFingerprint_order_differs_from_spec :
    generateFingerprint "2026-02-14T10:00:00.12345678" = "<TIMESTAMP><HEX>"
    ∧ specOrderFingerprint "2026-02-14T10:00:00.12345678" = "<TIMESTAMP>"
    ∧ generateFingerprint "2026-02-14T10:00:00.12345678"
        ≠ specOrderFingerprint "2026-02-14T10:00:00.12345678" := by
  refine ⟨by decide, by decide, by decide⟩

/-- C8 (amended): `generateFingerprint` replaces UUID patterns, then long
hex runs, then ISO-8601 timestamps, then decimal digit runs — hex before
timestamps — and on the specification's example pair both messages
normalize to the same fingerprint `status <N> at <TIMESTAMP> request <HEX>`. -/
theorem generateFingerprint_stability :
    generateFingerprint "status 503 at 2026-02-14T10:00:00Z request abc12345" =
      "status <N> at <TIMESTAMP> request <HEX>"
    ∧ generateFingerprint "status 429 at 2026-02-14T15:30:00Z request def67890" =
      "status <N> at <TIMESTAMP> request <HEX>"
    ∧ generateFingerprint "status 503 at 2026-02-14T10:00:00Z request abc12345" =
      generateFingerprint "status 429 at 2026-02-14T15:30:00Z request def67890" := by
  refine ⟨by decide, by decide, by decide⟩

/-- A non-nullish entry is stripped without throwing. -/
theorem stripHistoryEntry_ok (e : JVal) (h : e.isNullish = false) :
    stripHistoryEntry e =
      .ok (.jobj [("role", e.getField "role"), ("text", e.getField "text")]) := by
  cases e <;> first | rfl | simp [JVal.isNullish] at h

/-- `stripHistoryEntries` on an all-non-nullish list strips every entry. -/
theorem stripHistoryEntries_ok (entries : List JVal)
    (h : ∀ e ∈ entries, e.isNullish = false) :
    stripHistoryEntries entries =
      .ok (entries.map
        (fun e => .jobj [("role", e.getField "role"), ("text", e.getField "text")])) := by
  induction entries with
  | nil => rfl
  | cons e es ih =>
    have he := h e (List.mem_cons_self e es)
    have hes := ih (fun x hx => h x (List.mem_cons_of_mem e hx))
    simp only [stripHistoryEntries, stripHistoryEntry_ok e he, hes, List.map_cons]
    rfl

/-- Per-entry round trip: serialising a stripped `{ role, text }` object and
re-reading it through `getHistory`'s filter agrees with restricting the
original entry to its string `role`/`text` fields. -/
theorem historyEntryOf_normalize (a b : JVal) :
    historyEntryOf (jsonNormalize (.jobj [("role", a), ("text", b)])) =
      (match a.asString, b.asString with
       | some r, some t => some (⟨r, t⟩ : HistoryEntry)
       | _, _ => none) := by
  cases a <;> cases b <;> rfl

/-- List-level version of `historyEntryOf_normalize`. -/
theorem filterMap_normalize_strip (entries : List JVal) :
    (jsonNormalizeList (entries.map
        (fun e => .jobj [("role", e.getField "role"), ("text", e.getField "text")]))).filterMap
      historyEntryOf = entries.filterMap restrictToRoleText := by
  induction entries with
  | nil => rfl
  | cons e es ih =>
    simp only [List.map_cons, jsonNormalizeList, List.filterMap_cons]
    rw [historyEntryOf_normalize, ih]
    rfl

/-- C5 counterexample: for
`X = [{role:"user", text:"hi"}, null]` the claim's required outcome is the
single valid entry, but `saveHistory` throws while destructuring the `null`
entry (nothing is written), so the follow-up `getHistory` cannot return the
valid entry. -/
theorem saveHistory_throws_on_null_entry :
    saveHistory [.jobj [("role", .jstr "user"), ("text", .jstr "hi")], .jnull] = .error ()
    ∧ [JVal.jobj [("role", .jstr "user"), ("text", .jstr "hi")],
        JVal.jnull].filterMap restrictToRoleText = [⟨"user", "hi"⟩] := ⟨rfl, rfl⟩

/-- C5 (amended): for every entry list without `null`/`undefined` entries,
`saveHistory` writes the whole list (stripped to `{ role, text }`) under
`chat_history` with the 300-second TTL, and reading it back with
`getHistory` yields exactly the input restricted to its string
`role`/`text` fields — extras stripped, invalid entries dropped, order
preserved.  A `null` or `undefined` entry instead makes `saveHistory` throw
before anything is written. -/
theorem saveHistory_getHistory_roundtrip (entries : List JVal)
    (h : ∀ e ∈ entries, e.isNullish = false) :
    ∃ put, saveHistory entries = .ok put
      ∧ put.key = "chat_history"
      ∧ put.expirationTtl = some CACHE_TTL_SECONDS
      ∧ getHistory (some put.value) = entries.filterMap restrictToRoleText := by
  refine ⟨_, by rw [saveHistory, stripHistoryEntries_ok entries h]; rfl, rfl, rfl, ?_⟩
  show getHistory (some (jsonNormalize (.jarr (entries.map _)))) = _
  rw [show ∀ l, jsonNormalize (.jarr l) = .jarr (jsonNormalizeList l) from fun _ => rfl]
  show (jsonNormalizeList _).filterMap historyEntryOf = _
  exact filterMap_normalize_strip entries

/-- C5 witness: a concrete mixed list — a valid entry with an extra field, a
number, an entry with a non-string `role`, and an entry missing `text` —
round-trips to the single valid entry stripped of its extra field. -/
theorem saveHistory_getHistory_roundtrip_witness :
    ∃ put,
      saveHistory
          [.jobj [("role", .jstr "user"), ("text", .jstr "hello"), ("timestamp", .jnum 5)],
           .jnum 7,
           .jobj [("role", .jnum 123), ("text", .jstr "bad role")],
           .jobj [("role", .jstr "user")]] = .ok put
        ∧ put.key = "chat_history"
        ∧ put.expirationTtl = some CACHE_TTL_SECONDS
        ∧ getHistory (some put.value) =
            [.jobj [("role", .jstr "user"), ("text", .jstr "hello"), ("timestamp", .jnum 5)],
             .jnum 7,
             .jobj [("role", .jnum 123), ("text", .jstr "bad role")],
             .jobj [("role", .jstr "user")]].filterMap restrictToRoleText := by
  exact saveHistory_getHistory_roundtrip _ (by intro e he; fin_cases he <;> rfl)

/-- C6: `saveCache` writes exactly `{ sheetInfo, description }` — no
timestamp field — under the fixed 300-second store-native TTL; `getCache`
returns `null` when the backing store returns `null` or when the stored
value fails the shape check, and returns exactly the stored pair after a
`saveCache`. -/
theorem saveCache_getCache_contract (s d : String) (v : JVal)
    (hv : cacheShapeOk v = false) :
    saveCache s d =
      { key := "sheet_info"
        value := .jobj [("sheetInfo", .jstr s), ("description", .jstr d)]
        expirationTtl := some 300 }
    ∧ getCache none = none
    ∧ getCache (some v) = none
    ∧ getCache (some (saveCache s d).value) =
        some (.jobj [("sheetInfo", .jstr s), ("description", .jstr d)]) := by
  refine ⟨rfl, rfl, ?_, rfl⟩
  simp [getCache, hv]

/-- C6 witness: concrete strings and a shape-invalid stored object
(`sheetInfo` a number). -/
theorem saveCache_getCache_contract_witness :
    saveCache "sheet data" "desc" =
      { key := "sheet_info"
        value := .jobj [("sheetInfo", .jstr "sheet data"), ("description", .jstr "desc")]
        expirationTtl := some 300 }
    ∧ getCache none = none
    ∧ getCache (some (.jobj [("sheetInfo", .jnum 123)])) = none
    ∧ getCache (some (saveCache "sheet data" "desc").value) =
        some (.jobj [("sheetInfo", .jstr "sheet data"), ("description", .jstr "desc")]) :=
  saveCache_getCache_contract "sheet data" "desc" (.jobj [("sheetInfo", .jnum 123)]) rfl

/-- C7: when the fingerprint's local cache key `error_reported:<fingerprint>`
is present in the KV store (with the non-empty sentinel the pipeline itself
writes), `reportErrorToGitHub` performs at most that one KV read — it never
invokes the remote `isDuplicate` search or `createIssue`, leaves the issue
tracker's open issues unchanged, and leaves the KV store unchanged. -/
theorem reportError_kv_dedup_short_circuit (env : ReportEnv) (issues : List String)
    (msg v : String)
    (hv : env.kv ("error_reported:" ++ generateFingerprint msg) = some v)
    (hne : v ≠ "") :
    (reportErrorToGitHub env issues msg).issues = issues
    ∧ (reportErrorToGitHub env issues msg).kv = env.kv
    ∧ ∀ ev ∈ (reportErrorToGitHub env issues msg).events,
        ev = ReportEvent.kvGet ("error_reported:" ++ generateFingerprint msg) := by
  cases htok : env.githubToken with
  | none => simp [reportErrorToGitHub, htok]
  | some tok =>
    by_cases htok2 : tok = ""
    · simp [reportErrorToGitHub, htok, htok2]
    · simp [reportErrorToGitHub, htok, htok2, hv, hne]

/-- C7 witness: a store already holding `error_reported:boom → "1"` makes
the pipeline stop after the KV read for the error message `boom`. -/
theorem reportError_kv_dedup_short_circuit_witness :
    (reportErrorToGitHub
        { githubToken := some "ghp_token"
          kv := fun k => if k = "error_reported:boom" then some "1" else none
          isDupResult := false
          createOk := true } ["old"] "boom").issues = ["old"]
    ∧ (reportErrorToGitHub
        { githubToken := some "ghp_token"
          kv := fun k => if k = "error_reported:boom" then some "1" else none
          isDupResult := false
          createOk := true } ["old"] "boom").kv =
        (fun k => if k = "error_reported:boom" then some "1" else none)
    ∧ ∀ ev ∈ (reportErrorToGitHub
        { githubToken := some "ghp_token"
          kv := fun k => if k = "error_reported:boom" then some "1" else none
          isDupResult := false
          createOk := true } ["old"] "boom").events,
        ev = ReportEvent.kvGet ("error_reported:" ++ generateFingerprint "boom") :=
  reportError_kv_dedup_short_circuit _ ["old"] "boom" "1" (by decide) (by decide)

/-- C9: `editOriginalMessage` returns `false` — as a total function, without
throwing — on every non-ok outcome (rate limit, HTTP error, exception), and
an `onChunk` invocation whose edit fails leaves `lastEditTime`, both
last-emitted lengths and `editCount` unchanged while still accumulating the
thinking buffer, so the gates are evaluated against the same baseline at the
next chunk. -/
theorem failed_edit_preserves_throttle_state (o : EditOutcome) (ho : o ≠ .success)
    (question : String) (summarize : String → String) (s : StreamState) (e : ChunkEvent)
    (he : e.editOutcome = o) :
    editOriginalMessage o = false
    ∧ (onChunkStep question summarize s e).1.lastEditTime = s.lastEditTime
    ∧ (onChunkStep question summarize s e).1.lastThinkingEditLength = s.lastThinkingEditLength
    ∧ (onChunkStep question summarize s e).1.lastResponseEditLength = s.lastResponseEditLength
    ∧ (onChunkStep question summarize s e).1.editCount = s.editCount
    ∧ (onChunkStep question summarize s e).1.accumulatedThinking
        = s.accumulatedThinking
            ++ (if e.phase = .thinking then e.accumulatedText else "") := by
  have hfail : editOriginalMessage o = false := by cases o <;> simp_all [editOriginalMessage]
  have hfail2 : editOriginalMessage e.editOutcome = false := by rw [he]; exact hfail
  refine ⟨hfail, ?_⟩
  by_cases hp : e.phase = Phase.thinking <;>
    simp [onChunkStep, hfail2, hp] <;> split <;> simp

/-- C9 witness: a rate-limited edit (HTTP 429) during a response-phase chunk
that passes both gates leaves the recorded throttle fields of the initial
state unchanged. -/
theorem failed_edit_preserves_throttle_state_witness :
    editOriginalMessage .rateLimited = false
    ∧ (onChunkStep "q" (fun _ => "s") initStreamState
        ⟨"0123456789012345678901234567890123456789012345678901234567890",
         .response, 5000, .rateLimited⟩).1.lastEditTime = initStreamState.lastEditTime
    ∧ (onChunkStep "q" (fun _ => "s") initStreamState
        ⟨"0123456789012345678901234567890123456789012345678901234567890",
         .response, 5000, .rateLimited⟩).1.lastThinkingEditLength
        = initStreamState.lastThinkingEditLength
    ∧ (onChunkStep "q" (fun _ => "s") initStreamState
        ⟨"0123456789012345678901234567890123456789012345678901234567890",
         .response, 5000, .rateLimited⟩).1.lastResponseEditLength
        = initStreamState.lastResponseEditLength
    ∧ (onChunkStep "q" (fun _ => "s") initStreamState
        ⟨"0123456789012345678901234567890123456789012345678901234567890",
         .response, 5000, .rateLimited⟩).1.editCount = initStreamState.editCount
    ∧ (onChunkStep "q" (fun _ => "s") initStreamState
        ⟨"0123456789012345678901234567890123456789012345678901234567890",
         .response, 5000, .rateLimited⟩).1.accumulatedThinking
        = initStreamState.accumulatedThinking
            ++ (if (Phase.response = Phase.thinking) then
                  "0123456789012345678901234567890123456789012345678901234567890"
                else "") :=
  failed_edit_preserves_throttle_state .rateLimited (by decide) "q" (fun _ => "s")
    initStreamState _ rfl

/-- `runChunks` over an appended event list runs the pieces in sequence. -/
theorem runChunks_append (q : String) (sm : String → String) (s : StreamState)
    (es1 es2 : List ChunkEvent) :
    runChunks q sm s (es1 ++ es2) =
      ((runChunks q sm (runChunks q sm s es1).1 es2).1,
       (runChunks q sm s es1).2 ++ (runChunks q sm (runChunks q sm s es1).1 es2).2) := by
  induction es1 generalizing s with
  | nil => simp [runChunks]
  | cons e es ih => simp [runChunks, ih]

/-- A thinking-phase chunk never produces a forced edit, keeps the phase at
`thinking`, and appends its text to the thinking buffer. -/
theorem onChunkStep_thinking (q : String) (sm : String → String)
    (s : StreamState) (e : ChunkEvent) (hp : e.phase = .thinking) :
    (onChunkStep q sm s e).1.currentPhase = .thinking
    ∧ (onChunkStep q sm s e).1.accumulatedThinking
        = s.accumulatedThinking ++ e.accumulatedText
    ∧ ∀ a ∈ (onChunkStep q sm s e).2.toList, a.forced = false
        ∧ a.summarizerInput = some (s.accumulatedThinking ++ e.accumulatedText) := by
  cases hok : editOriginalMessage e.editOutcome <;>
    simp only [onChunkStep, hp, hok] <;> split_ifs <;> simp_all

/-- A response-phase chunk arriving while the phase is already `response`
never produces a forced edit and keeps the phase at `response`. -/
theorem onChunkStep_response_steady (q : String) (sm : String → String)
    (s : StreamState) (e : ChunkEvent) (hp : e.phase = .response)
    (hs : s.currentPhase = .response) :
    (onChunkStep q sm s e).1.currentPhase = .response
    ∧ ∀ a ∈ (onChunkStep q sm s e).2.toList, a.forced = false := by
  cases hok : editOriginalMessage e.editOutcome <;>
    simp only [onChunkStep, hp, hs, hok] <;> split_ifs <;> simp_all

/-- A response-phase chunk arriving while the phase is still `thinking`
always attempts exactly one edit, marked forced, whose content is the
formatted accumulated text — the interval and size gates are not consulted —
and moves the phase to `response`. -/
theorem onChunkStep_transition (q : String) (sm : String → String)
    (s : StreamState) (e : ChunkEvent) (hp : e.phase = .response)
    (hs : s.currentPhase = .thinking) :
    (onChunkStep q sm s e).1.currentPhase = .response
    ∧ (onChunkStep q sm s e).2 =
        some { content := formatContent q e.accumulatedText
               forced := true
               ok := editOriginalMessage e.editOutcome
               summarizerInput := none } := by
  cases hok : editOriginalMessage e.editOutcome <;>
    simp only [onChunkStep, hp, hs, hok] <;> split_ifs <;> simp_all

/-- Over a list of thinking-phase chunks, starting in the thinking phase:
the phase stays `thinking` and no forced edit occurs. -/
theorem runChunks_thinking_no_forced (q : String) (sm : String → String) :
    ∀ (es : List ChunkEvent) (s : StreamState),
      (∀ e ∈ es, e.phase = .thinking) → s.currentPhase = .thinking →
      (runChunks q sm s es).1.currentPhase = .thinking
      ∧ ∀ a ∈ (runChunks q sm s es).2, a.forced = false
  | [], s, _, hs => ⟨hs, by simp [runChunks]⟩
  | e :: es, s, h, hs => by
    have he := h e (List.mem_cons_self e es)
    have step := onChunkStep_thinking q sm s e he
    have rest := runChunks_thinking_no_forced q sm es (onChunkStep q sm s e).1
      (fun x hx => h x (List.mem_cons_of_mem e hx)) step.1
    refine ⟨?_, ?_⟩
    · simpa [runChunks] using rest.1
    · intro a ha
      simp only [runChunks, List.mem_append, Option.mem_toList] at ha
      rcases ha with ha | ha
      · exact ((step.2.2 a (by simpa using ha)).1)
      · exact rest.2 a ha

/-- Over a list of response-phase chunks, starting in the response phase:
no forced edit occurs. -/
theorem runChunks_response_no_forced (q : String) (sm : String → String) :
    ∀ (es : List ChunkEvent) (s : StreamState),
      (∀ e ∈ es, e.phase = .response) → s.currentPhase = .response →
      ∀ a ∈ (runChunks q sm s es).2, a.forced = false
  | [], _, _, _ => by simp [runChunks]
  | e :: es, s, h, hs => by
    have he := h e (List.mem_cons_self e es)
    have step := onChunkStep_response_steady q sm s e he hs
    have rest := runChunks_response_no_forced q sm es (onChunkStep q sm s e).1
      (fun x hx => h x (List.mem_cons_of_mem e hx)) step.1
    intro a ha
    simp only [runChunks, List.mem_append, Option.mem_toList] at ha
    rcases ha with ha | ha
    · exact step.2 a (by simpa using ha)
    · exact rest a ha

/-- C3 counterexample: on the alternating chunk sequence
`[thinking, response, thinking, response]` the `onChunk` handler issues two
forced (gate-bypassing) edits — one per thinking→response transition — so
the forced edit does not happen exactly once per run. -/
theorem forced_edit_twice_on_alternation :
    forcedEditCount (runChunks "q" (fun _ => "s") initStreamState
      [⟨"T", .thinking, 0, .success⟩, ⟨"R", .response, 0, .success⟩,
       ⟨"T2", .thinking, 0, .success⟩, ⟨"R2", .response, 0, .success⟩]).2 = 2
    ∧ forcedEditCount (runChunks "q" (fun _ => "s") initStreamState
      [⟨"T", .thinking, 0, .success⟩, ⟨"R", .response, 0, .success⟩,
       ⟨"T2", .thinking, 0, .success⟩, ⟨"R2", .response, 0, .success⟩]).2 ≠ 1 := by
  exact ⟨by decide, by decide⟩

/-- C3 (amended): on every chunk sequence consisting of thinking-phase
chunks followed by response-phase chunks, the run contains exactly one
forced edit: it happens at the first response chunk, bypasses both the
interval and size gates (no gate hypotheses are needed), and shows the
formatted text accumulated so far.  In general the handler forces one edit
per thinking→response transition, so alternating phase sequences force more
than one (see the counterexample). -/
theorem forced_edit_exactly_at_transition (q : String) (sm : String → String)
    (ts : List ChunkEvent) (r : ChunkEvent) (rs : List ChunkEvent)
    (hts : ∀ e ∈ ts, e.phase = .thinking) (hr : r.phase = .response)
    (hrs : ∀ e ∈ rs, e.phase = .response) :
    (runChunks q sm initStreamState (ts ++ r :: rs)).2.filter (fun a => a.forced) =
      [{ content := formatContent q r.accumulatedText
         forced := true
         ok := editOriginalMessage r.editOutcome
         summarizerInput := none }] := by
  have hthink := runChunks_thinking_no_forced q sm ts initStreamState hts rfl
  set s1 := (runChunks q sm initStreamState ts).1 with hs1
  have htrans := onChunkStep_transition q sm s1 r hr hthink.1
  have hresp := runChunks_response_no_forced q sm rs (onChunkStep q sm s1 r).1
    hrs htrans.1
  have hnil1 : (runChunks q sm initStreamState ts).2.filter (fun a => a.forced) = [] :=
    List.filter_eq_nil_iff.mpr (fun a ha => by simp [hthink.2 a ha])
  have hnil2 :
      (runChunks q sm (onChunkStep q sm s1 r).1 rs).2.filter (fun a => a.forced) = [] :=
    List.filter_eq_nil_iff.mpr (fun a ha => by simp [hresp a ha])
  rw [runChunks_append]
  rw [List.filter_append, hnil1]
  show [] ++ (runChunks q sm s1 (r :: rs)).2.filter (fun a => a.forced) = _
  simp only [runChunks, List.nil_append]
  rw [List.filter_append, hnil2, List.append_nil, htrans.2]
  rfl

/-- C3 witness: a single short thinking chunk followed by one response
chunk, both at time 0 (so neither gate can pass), still yields exactly the
one forced transition edit. -/
theorem forced_edit_exactly_at_transition_witness :
    (runChunks "q" (fun _ => "s") initStreamState
        ([⟨"T", .thinking, 0, .success⟩] ++ ⟨"R", .response, 0, .rateLimited⟩ :: [])).2.filter
      (fun a => a.forced) =
      [{ content := formatContent "q" "R"
         forced := true
         ok := editOriginalMessage .rateLimited
         summarizerInput := none }] :=
  forced_edit_exactly_at_transition "q" (fun _ => "s")
    [⟨"T", .thinking, 0, .success⟩] ⟨"R", .response, 0, .rateLimited⟩ []
    (by intro e he; fin_cases he; rfl) rfl (by simp)

/-- The final `askStream`'s part loop: the returned `fullText` is the
concatenation of the response-tagged parts' texts only, and on an
all-thought part list every `onChunk` call is a thinking-phase call carrying
that part's individual text. -/
theorem askStreamEvents_spec :
    ∀ (ps : List RawPart) (full : String),
      (askStreamEvents full ps).1 = full ++ concatAll (responseTexts ps)
      ∧ ((∀ p ∈ ps, p.thought = true) →
          ((askStreamEvents full ps).2.map (fun e => e.accumulatedText)
              = thinkingTexts ps
            ∧ ∀ e ∈ (askStreamEvents full ps).2, e.phase = Phase.thinking))
  | [], full => by simp [askStreamEvents, responseTexts, thinkingTexts, concatAll]
  | p :: ps, full => by
    obtain ⟨t, th, n, eo⟩ := p
    cases t with
    | none =>
      have ih := askStreamEvents_spec ps full
      refine ⟨?_, fun hth => ?_⟩
      · cases th <;>
          simpa [askStreamEvents, responseTexts, List.filterMap_cons] using ih.1
      · have hr := ih.2 (fun x hx => hth x (List.mem_cons_of_mem _ hx))
        cases th <;>
          simpa [askStreamEvents, thinkingTexts, List.filterMap_cons] using hr
    | some t =>
      cases th with
      | true =>
        have ih := askStreamEvents_spec ps full
        refine ⟨?_, fun hth => ?_⟩
        · simpa [askStreamEvents, responseTexts, List.filterMap_cons] using ih.1
        · have hr := ih.2 (fun x hx => hth x (List.mem_cons_of_mem _ hx))
          constructor
          · simpa [askStreamEvents, thinkingTexts, List.filterMap_cons] using hr.1
          · intro e he
            simp only [askStreamEvents] at he
            cases he with
            | head => rfl
            | tail _ h2 => exact hr.2 e h2
      | false =>
        have ih := askStreamEvents_spec ps (full ++ t)
        refine ⟨?_, fun hth => ?_⟩
        · show (askStreamEvents (full ++ t) ps).1 = _
          rw [ih.1]
          simp [responseTexts, List.filterMap_cons, concatAll, String.append_assoc]
        · exact absurd (hth _ (List.mem_cons_self _ _)) (by simp)

/-- Running a list of thinking-phase chunk events appends every chunk's
argument to the thinking buffer, and every summariser invocation along the
way receives the buffer accumulated so far — the concatenation of a prefix
of the arguments appended to the initial buffer. -/
theorem runChunks_thinking_buffer (q : String) (sm : String → String) :
    ∀ (es : List ChunkEvent) (s : StreamState), (∀ e ∈ es, e.phase = .thinking) →
      (runChunks q sm s es).1.accumulatedThinking
        = s.accumulatedThinking ++ concatAll (es.map (fun e => e.accumulatedText))
      ∧ ∀ a ∈ (runChunks q sm s es).2, ∃ k,
          a.summarizerInput = some (s.accumulatedThinking
            ++ concatAll ((es.map (fun e => e.accumulatedText)).take k))
  | [], s, _ => by simp [runChunks, concatAll]
  | e :: es, s, h => by
    have he := h e (List.mem_cons_self e es)
    have step := onChunkStep_thinking q sm s e he
    have ih := runChunks_thinking_buffer q sm es (onChunkStep q sm s e).1
      (fun x hx => h x (List.mem_cons_of_mem e hx))
    constructor
    · show (runChunks q sm (onChunkStep q sm s e).1 es).1.accumulatedThinking = _
      rw [ih.1, step.2.1]
      simp [concatAll, String.append_assoc]
    · intro a ha
      simp only [runChunks, List.mem_append, Option.mem_toList] at ha
      rcases ha with ha | ha
      · refine ⟨1, ?_⟩
        rw [(step.2.2 a (by simpa using ha)).2]
        simp [concatAll]
      · obtain ⟨k, hk⟩ := ih.2 a ha
        refine ⟨k + 1, ?_⟩
        rw [hk, step.2.1]
        simp [concatAll, String.append_assoc]

/-- C10 counterexample: for two thinking parts with texts `AA` and `BB` the
claim predicts the summariser buffer `t₁ ++ t₂ = AA ++ AABB = AAAABB`
(`tᵢ` the cumulative texts), but the final `askStream` hands `onChunk` each
thought part's individual text, so the buffer is the plain concatenation
`AABB`. -/
theorem thinking_buffer_not_prefix_duplicated :
    (runChunks "q" (fun _ => "s") initStreamState
        (askStreamEvents ""
          [⟨some "AA", true, 0, .success⟩,
           ⟨some "BB", true, 0, .success⟩]).2).1.accumulatedThinking = "AABB"
    ∧ concatAll (cumFrom "" ["AA", "BB"]) = "AAAABB"
    ∧ ("AABB" : String) ≠ concatAll (cumFrom "" ["AA", "BB"]) := by
  exact ⟨by decide, by decide, by decide⟩

/-- C10 (amended): the final `askStream` invokes `onChunk` with each thought
part's individual text, and the `onChunk` handler appends that argument to
`accumulatedThinking`, so after `n` thinking chunks with texts
`c₁, …, cₙ` the buffer passed to `summarizeThinking` is the plain
concatenation `c₁ ++ ⋯ ++ cₙ` — every summariser call receives such a plain
prefix `c₁ ++ ⋯ ++ cₖ`, with no text repeated across prefixes. -/
theorem thinking_buffer_plain_concat (q : String) (sm : String → String)
    (ps : List RawPart) (hth : ∀ p ∈ ps, p.thought = true) :
    (runChunks q sm initStreamState (askStreamEvents "" ps).2).1.accumulatedThinking
      = concatAll (thinkingTexts ps)
    ∧ ∀ a ∈ (runChunks q sm initStreamState (askStreamEvents "" ps).2).2,
        ∃ k, a.summarizerInput = some (concatAll ((thinkingTexts ps).take k)) := by
  have hask := (askStreamEvents_spec ps "").2 hth
  have hbuf := runChunks_thinking_buffer q sm (askStreamEvents "" ps).2 initStreamState
    hask.2
  constructor
  · rw [hbuf.1, hask.1]
    simp [initStreamState]
  · intro a ha
    obtain ⟨k, hk⟩ := hbuf.2 a ha
    refine ⟨k, ?_⟩
    rw [hk, hask.1]
    simp [initStreamState]

/-- C10 witness: two thinking parts with texts `AA` and `BB` — the buffer
ends as the plain `AABB` and every summariser input is one of its plain
prefixes. -/
theorem thinking_buffer_plain_concat_witness :
    (runChunks "q" (fun _ => "s") initStreamState
        (askStreamEvents ""
          [⟨some "AA", true, 0, .success⟩,
           ⟨some "BB", true, 0, .success⟩]).2).1.accumulatedThinking
      = concatAll (thinkingTexts
          [⟨some "AA", true, 0, .success⟩, ⟨some "BB", true, 0, .success⟩])
    ∧ ∀ a ∈ (runChunks "q" (fun _ => "s") initStreamState
          (askStreamEvents ""
            [⟨some "AA", true, 0, .success⟩,
             ⟨some "BB", true, 0, .success⟩]).2).2,
        ∃ k, a.summarizerInput
          = some (concatAll ((thinkingTexts
              [⟨some "AA", true, 0, .success⟩,
               ⟨some "BB", true, 0, .success⟩]).take k)) :=
  thinking_buffer_plain_concat "q" (fun _ => "s")
    [⟨some "AA", true, 0, .success⟩, ⟨some "BB", true, 0, .success⟩]
    (by intro p hp; fin_cases hp <;> rfl)

/-- C2: for every part sequence whose response text is not blank — in
particular every sequence of thinking-phase parts followed by
response-phase parts — `streamGeminiWithDiscordEditsStep` ends the trace
with exactly one final edit.  The edit is unconditional (it is attempted for
every PATCH outcome and under no gate hypotheses), and its content is
`formatContent` of the concatenation of the response-tagged parts' texts
alone — thinking-phase part texts never enter it, the final `askStream`
keeping `fullText` response-only. -/
theorem final_edit_response_only (q : String) (sm : String → String)
    (ps : List RawPart) (finalEditOutcome : EditOutcome)
    (hnb : blankText (concatAll (responseTexts ps)) = false) :
    (streamStep q sm ps finalEditOutcome).toOption.map
      (fun r => (r.response, r.edits.getLast?))
      = some (concatAll (responseTexts ps),
          some { content := formatContent q (concatAll (responseTexts ps))
                 forced := false
                 ok := editOriginalMessage finalEditOutcome
                 summarizerInput := none }) := by
  have hfull : (askStreamEvents "" ps).1 = concatAll (responseTexts ps) := by
    rw [(askStreamEvents_spec ps "").1, String.empty_append]
  simp [streamStep, hfull, hnb, Except.toOption, List.getLast?_concat]

/-- C2 witness: a thinking part `THINK` followed by a response part
`ANSWER`; the final edit content is `> q\nANSWER` — the response text only,
without the thinking part's text. -/
theorem final_edit_response_only_witness :
    (streamStep "q" (fun _ => "s")
        [⟨some "THINK", true, 0, .success⟩, ⟨some "ANSWER", false, 0, .success⟩]
        .success).toOption.map
      (fun r => (r.response, r.edits.getLast?))
      = some (concatAll (responseTexts
            [⟨some "THINK", true, 0, .success⟩, ⟨some "ANSWER", false, 0, .success⟩]),
          some { content := formatContent "q" (concatAll (responseTexts
                   [⟨some "THINK", true, 0, .success⟩,
                    ⟨some "ANSWER", false, 0, .success⟩]))
                 forced := false
                 ok := editOriginalMessage .success
                 summarizerInput := none })
    ∧ concatAll (responseTexts
        [⟨some "THINK", true, 0, .success⟩,
         (⟨some "ANSWER", false, 0, .success⟩ : RawPart)]) = "ANSWER"
    ∧ formatContent "q" "ANSWER" = "> q\nANSWER" :=
  ⟨final_edit_response_only "q" (fun _ => "s")
      [⟨some "THINK", true, 0, .success⟩, ⟨some "ANSWER", false, 0, .success⟩]
      .success (by decide),
   by decide, by decide⟩

/-- C1: when steps 1 and 2 succeed and every execution of the streaming step
body fails (its retry budget of `limit = 2`, i.e. three attempts, is
exhausted), the orchestrator run never executes the `saveHistory` step,
invokes `reportErrorToGitHub` exactly once, and delivers exactly one
user-visible failure message via the `sendErrorResponse` step. -/
theorem stream_failure_path (env : WfEnv) (es : Nat → String)
    (hsheet : env.sheetOutcome = .ok ()) (hhist : env.historyOutcome = .ok ())
    (hstream : ∀ i < STREAM_RETRY_LIMIT + 1, env.streamAttemptOutcome i = .error (es i)) :
    (runWorkflow env).count WfEvent.saveHistoryStep = 0
    ∧ (runWorkflow env).count WfEvent.reportError = 1
    ∧ (runWorkflow env).count WfEvent.sendErrorResponse = 1
    ∧ (runWorkflow env).count WfEvent.streamAttempt = STREAM_RETRY_LIMIT + 1 := by
  have h0 := hstream 0 (by norm_num [STREAM_RETRY_LIMIT])
  have h1 := hstream 1 (by norm_num [STREAM_RETRY_LIMIT])
  have h2 := hstream 2 (by norm_num [STREAM_RETRY_LIMIT])
  have hstep : stepDoRetry env.streamAttemptOutcome 0 (STREAM_RETRY_LIMIT + 1)
      = (.error (es 2), 3) := by
    show stepDoRetry env.streamAttemptOutcome 0 3 = _
    simp [stepDoRetry, h0, h1, h2]
  have htrace : runWorkflow env =
      [WfEvent.sheetStep, WfEvent.historyStep]
        ++ List.replicate 3 WfEvent.streamAttempt
        ++ [WfEvent.reportError, WfEvent.sendErrorResponse] := by
    simp [runWorkflow, hsheet, hhist, hstep]
  rw [htrace]
  exact ⟨by decide, by decide, by decide, by decide⟩

/-- C1 witness: a concrete environment whose streaming step fails on every
attempt while steps 1 and 2 succeed. -/
theorem stream_failure_path_witness :
    (runWorkflow ⟨.ok (), .ok (), fun _ => .error "stream failed"⟩).count
      WfEvent.saveHistoryStep = 0
    ∧ (runWorkflow ⟨.ok (), .ok (), fun _ => .error "stream failed"⟩).count
      WfEvent.reportError = 1
    ∧ (runWorkflow ⟨.ok (), .ok (), fun _ => .error "stream failed"⟩).count
      WfEvent.sendErrorResponse = 1
    ∧ (runWorkflow ⟨.ok (), .ok (), fun _ => .error "stream failed"⟩).count
      WfEvent.streamAttempt = STREAM_RETRY_LIMIT + 1 :=
  stream_failure_path ⟨.ok (), .ok (), fun _ => .error "stream failed"⟩
    (fun _ => "stream failed") rfl rfl (fun _ _ => rfl)

end Spec2Proof
